import Mathlib

/-!
Verification development for the Edulog web application (`src/app.py`).

The application is a Flask/SQLAlchemy CRUD system over five tables
(Department, User, Meeting, Task, Schedule).  We give a shallow embedding:
each table row becomes a structure, the database becomes a record of row
lists, and each route handler that the claims mention becomes a pure Lean
function from the database (plus the request parameters and the ambient
"today" date string) to its result.  Python / SQL primitives used by the
code are modelled on the code-point list `String.data`:

* Python `s < t` / `s <= t` on strings and the SQL `<`, `>=` comparisons on
  the `VARCHAR` date columns are code-point lexicographic order (`pyLt`,
  `pyLe`);
* `s.split(',')` is `splitComma`, `x.strip()` is `pyStrip` (both on
  `List Char`);
* the SQL `LIKE 'm%'` month filter is a prefix test on the date string;
* Python `dict` insertion/update (insertion-ordered) is an association
  list updated in place (`dictAdd`), and Python's stable ascending
  `sorted(..., key=lambda x: x[1])` is the stable insertion sort
  `pySorted` by the second component;
* `int((a/b)*100)`, computed by CPython in IEEE binary64 doubles, is
  `pyFloatPct`: the quotient `a/b` correctly rounded to 53 significant
  bits (nearest, ties to even), multiplied by 100 and rounded again to 53
  significant bits, then truncated toward zero.  This is NOT the exact
  floor `100 * a / b`: at 29 of 100 the program shows 28, at 29 of 50 it
  shows 57.  The model has an unbounded exponent, which agrees with
  binary64 whenever `0 < a ≤ b < 2^1022` (no overflow or gradual
  underflow in that range).
-/

namespace Edulog

/-- Python 3 `str.isspace` / `str.strip` whitespace: all Unicode
whitespace, i.e. U+0009..U+000D, U+001C..U+001F, space, U+0085, U+00A0,
U+1680, U+2000..U+200A, U+2028, U+2029, U+202F, U+205F, U+3000. -/
def pyIsSpace (c : Char) : Bool :=
  let n := c.toNat
  (9 ≤ n && n ≤ 13) || (28 ≤ n && n ≤ 31) || n = 32 || n = 133 || n = 160 ||
  n = 0x1680 || (0x2000 ≤ n && n ≤ 0x200A) || n = 0x2028 || n = 0x2029 ||
  n = 0x202F || n = 0x205F || n = 0x3000

/-- Python `x.strip()`: drop whitespace from both ends. -/
def pyStrip (l : List Char) : List Char :=
  ((l.dropWhile pyIsSpace).reverse.dropWhile pyIsSpace).reverse

/-- Python `s.split(',')` on the code-point list: `[] ↦ [[]]`, separators
delimit (possibly empty) pieces, exactly as in CPython. -/
def splitComma : List Char → List (List Char)
  | [] => [[]]
  | c :: cs =>
    match splitComma cs with
    | [] => [[c]]
    | t :: ts => if c = ',' then [] :: t :: ts else (c :: t) :: ts

/-- Python string `<` (and SQL `<` on VARCHAR): code-point lexicographic. -/
def pyLt (s t : String) : Prop := s.data < t.data

/-- Python string `<=` / SQL `>=` flipped: code-point lexicographic. -/
def pyLe (s t : String) : Prop := s.data < t.data ∨ s = t

instance : DecidableRel pyLt := fun s t => inferInstanceAs (Decidable (s.data < t.data))

instance : DecidableRel pyLe := fun s t => inferInstanceAs (Decidable (s.data < t.data ∨ s = t))

/-! ### IEEE binary64 percentage, `int((a/b)*100)`

CPython evaluates the percentage expressions of the dashboards in
double-precision floats, so the displayed value can fall below the exact
floor `⌊100·a/b⌋` (29 of 100 shows 28).  The pipeline is deterministic
and is embedded exactly: round the quotient to 53 significant bits
(nearest, ties to even), multiply by the exactly representable 100 and
round the product to 53 significant bits again, then truncate toward
zero.  Fuel-based helpers keep every definition kernel-evaluable. -/

/-- Number of binary digits of `n` (0 for 0); fuel-based (`fuel = n`
always suffices since `log2 n + 1 ≤ n` for `n ≥ 1`). -/
def bitlenAux : Nat → Nat → Nat
  | 0, _ => 0
  | fuel + 1, n => if n = 0 then 0 else bitlenAux fuel (n / 2) + 1

/-- Number of binary digits of `n`. -/
def bitlen (n : Nat) : Nat := bitlenAux n n

/-- Round `num / den` (for `den > 0`) to the nearest integer, ties to the
even candidate — the IEEE round-to-nearest-even rule at integer scale. -/
def rne (num den : Nat) : Nat :=
  let q := num / den
  let r := num % den
  if 2 * r < den then q
  else if den < 2 * r then q + 1
  else if q % 2 = 0 then q else q + 1

/-- The least `k` with `a·2^k ≥ 2^52·b`, i.e. the scaling that brings the
quotient `a/b ≤ 1` into the binary64 significand range `[2^52, 2^53)`;
fuel-based (`52 + b` steps always suffice for `a ≥ 1`). -/
def normScaleAux : Nat → Nat → Nat → Nat → Nat
  | 0, _, _, k => k
  | fuel + 1, a, b, k => if 2 ^ 52 * b ≤ a * 2 ^ k then k else normScaleAux fuel a b (k + 1)

/-- The binary64 normalization scale for the quotient `a / b`. -/
def normScale (a b : Nat) : Nat := normScaleAux (52 + b) a b 0

/-- `int((p/t)*100)` exactly as CPython computes it in binary64 for
`0 ≤ p ≤ t` (unbounded exponent, which agrees with binary64 for every
`t < 2^1022`): correctly-rounded division, exact conversion of 100,
correctly-rounded multiplication, truncation toward zero. -/
def pyFloatPct (p t : Nat) : Nat :=
  if p = 0 then 0 else
  let k := normScale p t
  let m := rne (p * 2 ^ k) t
  let q := m * 100
  let j := bitlen q - 53
  let m2 := rne q (2 ^ j)
  m2 * 2 ^ j / 2 ^ k

/-! ## Data model (`src/app.py`, lines 34-85) -/

/-- `class Department(db.Model)`: `id` primary key, `name` unique. -/
structure Department where
  id : Nat
  name : String
deriving DecidableEq, Repr

/-- `class User(UserMixin, db.Model)`. -/
structure User where
  id : Nat
  username : String
  password_hash : String
  full_name : String
  role : String
  department : String
  designation : String
deriving DecidableEq, Repr

/-- `class Meeting(db.Model)`.  The `timestamp` column (a `DateTime`
defaulted to `datetime.now`) is carried as an opaque string; no claim
touches it. -/
structure Meeting where
  id : Nat
  timestamp : String
  date_of_meeting : String
  department : String
  department_head : String
  meeting_type : String
  mode : String
  objective : String
  agenda : String
  start_time : String
  end_time : String
  attendees : String
  absentees : String
  key_decisions : String
  action_items : String
  productive : String
  productivity_reason : String
  submitted_by : String
deriving DecidableEq, Repr

/-- `class Task(db.Model)`.  `completion_date` is nullable in the schema,
so it is an `Option`. -/
structure Task where
  id : Nat
  title : String
  description : String
  assigner : String
  assignee : String
  department : String
  deadline : String
  status : String
  completion_date : Option String
deriving DecidableEq, Repr

/-- `class Schedule(db.Model)`. -/
structure Schedule where
  id : Nat
  title : String
  target_dept : String
  date : String
  time : String
  mode : String
  created_by : String
deriving DecidableEq, Repr

/-- The relational state: the five tables, each a list of rows in
insertion order (the order `query.all()` returns them in). -/
structure AppDB where
  departments : List Department
  users : List User
  meetings : List Meeting
  tasks : List Task
  schedules : List Schedule
deriving DecidableEq, Repr

/-! ## Notifications (`inject_notifications`, lines 91-109) -/

/-- The alert a single task yields inside the `for t in my_tasks` loop:
`"OVERDUE: <title>"` when its deadline precedes today, `"DUE TODAY: <title>"`
when it is due today, nothing otherwise. -/
def taskAlert (today : String) (t : Task) : Option String :=
  if pyLt t.deadline today then some ("OVERDUE: " ++ t.title)
  else if t.deadline = today then some ("DUE TODAY: " ++ t.title)
  else none

/-- The alert a single schedule yields inside the `for s in schedules` loop. -/
def schedAlert (today : String) (s : Schedule) : Option String :=
  if s.date = today then some ("MEETING TODAY: " ++ s.title ++ " @ " ++ s.time)
  else if pyLt today s.date then some ("UPCOMING: " ++ s.title ++ " (" ++ s.date ++ ")")
  else none

/-- `inject_notifications`: empty when the session's `notifications_cleared`
flag is set; otherwise the task alerts (over the current user's
non-Completed tasks) followed by the schedule alerts (over schedules
targeted at `All` or the user's department). -/
def inject_notifications (db : AppDB) (u : User) (cleared : Bool) (today : String) :
    List String :=
  if cleared then []
  else
    ((db.tasks.filter fun t =>
        t.assignee == u.username && !(t.status == "Completed")).filterMap (taskAlert today))
    ++ ((db.schedules.filter fun s =>
        s.target_dept == "All" || s.target_dept == u.department).filterMap (schedAlert today))

/-! ## Dashboards (`leader_dashboard` lines 139-153, `employee_dashboard`
lines 166-175) -/

/-- The schedule query both dashboards issue, verbatim:
`(target_dept == 'All' or target_dept == user.department) and date >= today`. -/
def upcoming_schedules (scheds : List Schedule) (u : User) (today : String) :
    List Schedule :=
  scheds.filter fun s =>
    (s.target_dept == "All" || s.target_dept == u.department) && decide (pyLe today s.date)

/-- What `leader_dashboard` passes to its template (render-only inputs such
as the staff and department lists are the raw tables and are omitted). -/
structure LeaderView where
  assigned_tasks : List Task
  my_tasks : List Task
  team_logs : List Meeting
  schedules : List Schedule
  rate : Nat
  total : Nat
deriving Repr

/-- `leader_dashboard`: 403 (`none`) unless the role is Leader or Admin;
otherwise the assigned-task slice and the completion rate
`int((done/total)*100)`, computed in binary64 (`pyFloatPct`), 0 when
there are no assigned tasks. -/
def leader_dashboard (db : AppDB) (u : User) (today : String) : Option LeaderView :=
  if !(u.role == "Leader" || u.role == "Admin") then none
  else
    let assigned_tasks := db.tasks.filter fun t => t.assigner == u.full_name
    let total := assigned_tasks.length
    let done := (assigned_tasks.filter fun t => t.status == "Completed").length
    let rate := if total > 0 then pyFloatPct done total else 0
    some { assigned_tasks := assigned_tasks
           my_tasks := db.tasks.filter fun t => t.assignee == u.username
           team_logs := db.meetings.filter fun m => m.department == u.department
           schedules := upcoming_schedules db.schedules u today
           rate := rate, total := total }

/-- What `employee_dashboard` passes to its template.  The attended/missed
meeting slices (substring match of the full name in the attendee/absentee
text) are not touched by any claim and are omitted. -/
structure EmployeeView where
  my_tasks : List Task
  schedules : List Schedule
deriving Repr

/-- `employee_dashboard` (no role check beyond authentication). -/
def employee_dashboard (db : AppDB) (u : User) (today : String) : EmployeeView :=
  { my_tasks := db.tasks.filter fun t => t.assignee == u.username
    schedules := upcoming_schedules db.schedules u today }

/-! ## Workflow mutators -/

/-- `update_status` (lines 225-231): 404 (`none`) when no task has the id;
otherwise set `status` to the path string, and stamp `completion_date`
with today exactly when the new status is literally `Completed`. -/
def update_status (db : AppDB) (id : Nat) (new_status : String) (today : String) :
    Option AppDB :=
  match db.tasks.find? (fun t => t.id == id) with
  | none => none
  | some _ =>
    some { db with
           tasks := db.tasks.map fun t =>
             if t.id == id then
               { t with
                 status := new_status
                 completion_date :=
                   if new_status = "Completed" then some today else t.completion_date }
             else t }

/-- The page `manage_staff` renders (template plus flashed messages) and
the database it leaves behind. -/
structure StaffPage where
  dbAfter : AppDB
  template : String
  flashes : List String
deriving Repr

/-- The staff-creation form fields. -/
structure StaffForm where
  username : String
  password : String
  fullname : String
  role : String
  designation : String
  department : String
deriving DecidableEq, Repr

/-- `manage_staff`, POST branch (lines 233-243): 403 (`none`) unless Admin;
otherwise insert the new user and render the same page.  The
`try ... except: pass` swallows the persistence-layer exception: we model
the one failure the schema itself guarantees, the unique-constraint
violation when the username already exists, in which case the commit
raises, the handler discards the exception and renders the same template
with no flash.  `hash` abstracts `bcrypt.generate_password_hash`; an empty
password falls back to `"welcome123"` (`request.form['password'] or ...`).
`newId` is the primary key the database assigns on insert. -/
def manage_staff_post (db : AppDB) (cur : User) (form : StaffForm)
    (hash : String → String) (newId : Nat) : Option StaffPage :=
  if !(cur.role == "Admin") then none
  else if db.users.any (fun u => u.username == form.username) then
    some { dbAfter := db, template := "manage_staff.html", flashes := [] }
  else
    some { dbAfter :=
             { db with
               users := db.users ++
                 [{ id := newId
                    username := form.username
                    password_hash :=
                      hash (if form.password = "" then "welcome123" else form.password)
                    full_name := form.fullname
                    role := form.role
                    department := form.department
                    designation := form.designation }] }
           template := "manage_staff.html"
           flashes := [] }

/-- `delete_user` (lines 251-256): 404 (`none`) when no user has the id;
a self-delete (`u.id == current_user.id`) silently does nothing; any other
user is deleted (by primary key).  No other table is touched. -/
def delete_user (db : AppDB) (curId : Nat) (id : Nat) : Option AppDB :=
  match db.users.find? (fun u => u.id == id) with
  | none => none
  | some u =>
    if u.id != curId then
      some { db with users := db.users.filter fun v => v.id != id }
    else
      some db

/-- `add_department` (lines 258-264): 403 (`none`) unless Admin; insert a
new Department only when no row with that name exists.  `newId` is the
primary key assigned on insert. -/
def add_department (db : AppDB) (cur : User) (dept_name : String) (newId : Nat) :
    Option AppDB :=
  if !(cur.role == "Admin") then none
  else if (db.departments.find? (fun d => d.name == dept_name)).isSome then some db
  else some { db with departments := db.departments ++ [{ id := newId, name := dept_name }] }

/-! ## Meeting analytics (`meeting_analytics`, lines 266-295) -/

/-- `len([x for x in absentees.split(',') if x.strip()])`: the number of
comma-separated pieces that are non-empty after stripping whitespace. -/
def absenteeTokens (absentees : String) : Nat :=
  ((splitComma absentees.data).filter fun x => !(pyStrip x).isEmpty).length

/-- Python `d[k] = d.get(k, 0) + v` on an insertion-ordered dict modelled
as an association list: bump the first entry with the key, else append. -/
def dictAdd : List (String × Nat) → String → Nat → List (String × Nat)
  | [], k, v => [(k, v)]
  | p :: ps, k, v =>
    if p.1 = k then (p.1, p.2 + v) :: ps else p :: dictAdd ps k v

/-- One insertion step of the stable ascending sort by the second
component: the new element goes before the first entry whose count is not
smaller, hence after every earlier-inserted entry with the same count. -/
def pyInsert (p : String × Nat) : List (String × Nat) → List (String × Nat)
  | [] => [p]
  | q :: qs => if q.2 < p.2 then q :: pyInsert p qs else p :: q :: qs

/-- Python `sorted(items, key=lambda x: x[1])`: a stable ascending sort by
the second component (insertion sort; Timsort is extensionally the same). -/
def pySorted : List (String × Nat) → List (String × Nat)
  | [] => []
  | p :: ps => pyInsert p (pySorted ps)

/-- The filter the analytics query applies: by department unless the
parameter is `'All'`, then by month prefix on the date string unless the
`month` parameter is absent or empty (`if month:`).  SQL
`LIKE 'month%'` is a prefix match (the parameter is a plain `YYYY-MM`
string with no wildcard characters). -/
def filteredMeetings (ms : List Meeting) (dept : String) (month : Option String) :
    List Meeting :=
  let q1 := if dept = "All" then ms else ms.filter fun m => m.department == dept
  match month with
  | none => q1
  | some mo =>
    if mo = "" then q1
    else q1.filter fun m => mo.data.isPrefixOf m.date_of_meeting.data

/-- The `dept_counts` dict of the analytics loop: one `dictAdd` of 1 per
meeting, in list order. -/
def deptCounts (ms : List Meeting) : List (String × Nat) :=
  ms.foldl (fun acc m => dictAdd acc m.department 1) []

/-- The `absentee_counts` dict of the analytics loop: one `dictAdd` of the
meeting's absentee-token count per meeting, in list order. -/
def absenteeCounts (ms : List Meeting) : List (String × Nat) :=
  ms.foldl (fun acc m => dictAdd acc m.department (absenteeTokens m.absentees)) []

/-- The KPI block `meeting_analytics` passes to its template, together
with the two per-department dicts. -/
structure AnalyticsView where
  meetings : List Meeting
  total : Nat
  productive : Nat
  efficiency : Nat
  best_att : String
  dept_counts : List (String × Nat)
  absentee_counts : List (String × Nat)
deriving Repr

/-- `meeting_analytics`: filter, count productive meetings, compute the
efficiency percentage `int((productive/total)*100)` in binary64
(`pyFloatPct`, 0 when no meetings), accumulate the per-department meeting
and absentee-token counts in insertion-ordered dicts (the source fills
both in one loop; folding twice over the same list is the same
computation), sort the absentee dict ascending by count (stably) and
report the first department, `"N/A"` when there are no entries. -/
def meeting_analytics (db : AppDB) (dept : String) (month : Option String) :
    AnalyticsView :=
  let meetings := filteredMeetings db.meetings dept month
  let total_logs := meetings.length
  let productive := (meetings.filter fun m => m.productive == "Yes").length
  let efficiency := if total_logs > 0 then pyFloatPct productive total_logs else 0
  let dept_counts := deptCounts meetings
  let absentee_counts := absenteeCounts meetings
  let sorted_absent := pySorted absentee_counts
  let best_attendance :=
    match sorted_absent.head? with
    | some p => p.1
    | none => "N/A"
  { meetings := meetings, total := total_logs, productive := productive
    efficiency := efficiency, best_att := best_attendance
    dept_counts := dept_counts, absentee_counts := absentee_counts }

/-! ## Export (`export_analytics`, lines 297-307) -/

/-- One spreadsheet row: the fixed column set the export builds per
meeting. -/
structure ExportRow where
  date : String
  dept : String
  head : String
  objective : String
  decisions : String
  absentees : String
  action_items : String
  productive : String
deriving DecidableEq, Repr

/-- The dict built for one meeting in the export's list comprehension. -/
def toExportRow (m : Meeting) : ExportRow :=
  { date := m.date_of_meeting, dept := m.department, head := m.department_head
    objective := m.objective, decisions := m.key_decisions, absentees := m.absentees
    action_items := m.action_items, productive := m.productive }

/-- `export_analytics`: reads the `dept` query parameter but queries
`Meeting.query.all()` — every meeting, unfiltered.  Returns the rows of
the spreadsheet and the download filename, the only place `dept` is used. -/
def export_analytics (db : AppDB) (dept : String) : List ExportRow × String :=
  (db.meetings.map toExportRow, "EduLog_" ++ dept ++ ".xlsx")

/-! ## Dictionary and stable-sort lemmas (for the analytics claims) -/

/-- Python `d.get(k)` on the association list: the value at the first
entry with the key. -/
def lookupD (l : List (String × Nat)) (d : String) : Option Nat :=
  (l.find? fun p => p.1 == d).map Prod.snd

/-- The total absentee-token count a department accumulates over a meeting
list (the reference value the dict should hold). -/
def absSum (ms : List Meeting) (d : String) : Nat :=
  ((ms.filter fun m => m.department == d).map fun m => absenteeTokens m.absentees).sum

theorem dictAdd_keys (l : List (String × Nat)) (k : String) (v : Nat) :
    (dictAdd l k v).map Prod.fst =
      if k ∈ l.map Prod.fst then l.map Prod.fst else l.map Prod.fst ++ [k] := by
  induction l with
  | nil => simp [dictAdd]
  | cons p ps ih =>
    by_cases h : p.1 = k
    · simp [dictAdd, h]
    · by_cases hk : k ∈ ps.map Prod.fst
      · simp [dictAdd, h, ih, hk, Ne.symm h]
      · simp [dictAdd, h, ih, hk, Ne.symm h]

theorem lookupD_nil (d : String) : lookupD [] d = none := rfl

theorem lookupD_cons (p : String × Nat) (ps : List (String × Nat)) (d : String) :
    lookupD (p :: ps) d = if p.1 = d then some p.2 else lookupD ps d := by
  by_cases h : p.1 = d
  · rw [if_pos h]
    unfold lookupD
    rw [List.find?_cons_of_pos _ (by simp [h])]
    rfl
  · rw [if_neg h]
    unfold lookupD
    rw [List.find?_cons_of_neg _ (by simp [h])]

theorem lookupD_dictAdd (l : List (String × Nat)) (k : String) (v : Nat) (d : String) :
    lookupD (dictAdd l k v) d =
      if d = k then some ((lookupD l d).getD 0 + v) else lookupD l d := by
  induction l with
  | nil =>
    by_cases h : d = k
    · simp [dictAdd, lookupD_cons, lookupD_nil, h]
    · have hkd : ¬ k = d := fun hh => h hh.symm
      simp [dictAdd, lookupD_cons, lookupD_nil, h, hkd]
  | cons p ps ih =>
    by_cases h : p.1 = k
    · by_cases hd : d = k
      · have hpd : p.1 = d := by rw [h, hd]
        simp [dictAdd, lookupD_cons, h, hd, hpd]
      · have hpd : ¬ p.1 = d := by rw [h]; exact fun hh => hd hh.symm
        have hkd : ¬ k = d := fun hh => hd hh.symm
        simp [dictAdd, lookupD_cons, h, hd, hpd, hkd]
    · by_cases hpd : p.1 = d
      · have hdk : ¬ d = k := by rw [← hpd]; exact h
        simp [dictAdd, lookupD_cons, h, hpd, hdk]
      · simp [dictAdd, lookupD_cons, h, hpd, ih]

theorem mem_iff_lookupD (l : List (String × Nat)) (hn : (l.map Prod.fst).Nodup)
    (d : String) (c : Nat) : (d, c) ∈ l ↔ lookupD l d = some c := by
  induction l with
  | nil => simp [lookupD_nil]
  | cons p ps ih =>
    simp only [List.map_cons, List.nodup_cons] at hn
    obtain ⟨hp, hps⟩ := hn
    rw [lookupD_cons]
    by_cases hpd : p.1 = d
    · rw [if_pos hpd]
      constructor
      · intro hm
        rcases List.mem_cons.mp hm with h | h
        · rw [← h]
        · exact absurd (hpd ▸ List.mem_map.mpr ⟨(d, c), h, rfl⟩) hp
      · intro h
        simp only [Option.some_inj] at h
        have hpc : p = (d, c) := by
          cases p
          simp_all
        exact List.mem_cons.mpr (Or.inl hpc.symm)
    · rw [if_neg hpd]
      constructor
      · intro hm
        rcases List.mem_cons.mp hm with h | h
        · exact absurd (by rw [← h]) hpd
        · exact (ih hps).mp h
      · intro h
        exact List.mem_cons_of_mem _ ((ih hps).mpr h)

theorem keys_mem_iff_lookupD (l : List (String × Nat)) (d : String) :
    d ∈ l.map Prod.fst ↔ (lookupD l d).isSome := by
  induction l with
  | nil => simp [lookupD_nil]
  | cons p ps ih =>
    rw [List.map_cons]
    by_cases hpd : p.1 = d
    · simp [lookupD_cons, hpd]
    · have hdp : ¬ d = p.1 := fun hh => hpd hh.symm
      simpa [lookupD_cons, hpd, hdp] using ih

theorem absSum_cons (m : Meeting) (ms : List Meeting) (d : String) :
    absSum (m :: ms) d =
      (if m.department = d then absenteeTokens m.absentees else 0) + absSum ms d := by
  by_cases h : m.department = d
  · simp [absSum, List.filter_cons, h]
  · simp [absSum, List.filter_cons, h]

theorem absenteeCounts_loop_lookupD (ms : List Meeting) :
    ∀ (acc : List (String × Nat)) (d : String),
      lookupD (ms.foldl (fun a m => dictAdd a m.department (absenteeTokens m.absentees)) acc) d
        =
      (match lookupD acc d with
       | some c => some (c + absSum ms d)
       | none => if d ∈ ms.map Meeting.department then some (absSum ms d) else none) := by
  induction ms with
  | nil =>
    intro acc d
    cases h : lookupD acc d <;> simp [h, absSum]
  | cons m ms ih =>
    intro acc d
    rw [List.foldl_cons, ih, lookupD_dictAdd, absSum_cons]
    by_cases hd : d = m.department
    · rw [if_pos hd]
      cases h : lookupD acc d with
      | none => simp [hd, Nat.add_comm]
      | some c => simp [hd, Nat.add_assoc, Nat.add_comm (absenteeTokens m.absentees)]
    · rw [if_neg hd]
      have hmd : ¬ m.department = d := fun hh => hd hh.symm
      cases h : lookupD acc d <;> simp [h, hmd, hd]

theorem absenteeCounts_lookupD (ms : List Meeting) (d : String) :
    lookupD (absenteeCounts ms) d =
      if d ∈ ms.map Meeting.department then some (absSum ms d) else none := by
  rw [absenteeCounts, absenteeCounts_loop_lookupD ms [] d, lookupD_nil]

theorem absenteeCounts_keys_nodup (ms : List Meeting) :
    ((absenteeCounts ms).map Prod.fst).Nodup := by
  rw [absenteeCounts]
  generalize hacc : ([] : List (String × Nat)) = acc
  have hn : (acc.map Prod.fst).Nodup := by rw [← hacc]; simp
  clear hacc
  induction ms generalizing acc with
  | nil => simpa using hn
  | cons m ms ih =>
    rw [List.foldl_cons]
    apply ih
    rw [dictAdd_keys]
    by_cases h : m.department ∈ acc.map Prod.fst
    · rw [if_pos h]; exact hn
    · rw [if_neg h]
      simp [List.nodup_append, hn, h]

/-- The first entry of the list attaining the minimal count — the
specification-side reading of "fewest absentee tokens, ties broken by the
first-encountered department". -/
def firstMin : List (String × Nat) → Option (String × Nat)
  | [] => none
  | p :: ps =>
    match firstMin ps with
    | none => some p
    | some m => if p.2 ≤ m.2 then some p else some m

theorem firstMin_eq_none_iff (l : List (String × Nat)) :
    firstMin l = none ↔ l = [] := by
  cases l with
  | nil => simp [firstMin]
  | cons p ps =>
    cases h : firstMin ps with
    | none => simp [firstMin, h]
    | some m =>
      by_cases hle : p.2 ≤ m.2 <;> simp [firstMin, h, hle]

theorem pyInsert_head (p : String × Nat) (l : List (String × Nat)) :
    (pyInsert p l).head? =
      some (match l.head? with
            | none => p
            | some q => if q.2 < p.2 then q else p) := by
  cases l with
  | nil => simp [pyInsert]
  | cons q qs =>
    by_cases h : q.2 < p.2 <;> simp [pyInsert, h]

theorem pySorted_head (l : List (String × Nat)) :
    (pySorted l).head? = firstMin l := by
  induction l with
  | nil => rfl
  | cons p ps ih =>
    rw [pySorted, pyInsert_head, ih]
    cases h : firstMin ps with
    | none => simp [firstMin, h]
    | some m =>
      by_cases hle : p.2 ≤ m.2
      · have : ¬ m.2 < p.2 := Nat.not_lt.mpr hle
        simp [firstMin, h, hle, this]
      · have : m.2 < p.2 := Nat.lt_of_not_le hle
        simp [firstMin, h, hle, this]

theorem firstMin_split (l : List (String × Nat)) (p : String × Nat)
    (hp : firstMin l = some p) :
    ∃ pre post, l = pre ++ p :: post ∧ (∀ q ∈ pre, p.2 < q.2) ∧ ∀ q ∈ l, p.2 ≤ q.2 := by
  induction l generalizing p with
  | nil => simp [firstMin] at hp
  | cons a as ih =>
    cases h : firstMin as with
    | none =>
      have has : as = [] := (firstMin_eq_none_iff as).mp h
      rw [firstMin, h] at hp
      simp only [Option.some_inj] at hp
      subst hp
      subst has
      exact ⟨[], [], rfl, by simp, by simp⟩
    | some m =>
      rw [firstMin, h] at hp
      change (if a.2 ≤ m.2 then some a else some m) = some p at hp
      by_cases hle : a.2 ≤ m.2
      · rw [if_pos hle] at hp
        simp only [Option.some_inj] at hp
        subst hp
        obtain ⟨pre', post', heq, _, hmin⟩ := ih m h
        refine ⟨[], as, rfl, by simp, ?_⟩
        intro q hq
        rcases List.mem_cons.mp hq with hq | hq
        · rw [hq]
        · exact Nat.le_trans hle (hmin q hq)
      · rw [if_neg hle] at hp
        simp only [Option.some_inj] at hp
        subst hp
        obtain ⟨pre', post', heq, hpre, hmin⟩ := ih m h
        refine ⟨a :: pre', post', by rw [heq]; rfl, ?_, ?_⟩
        · intro q hq
          rcases List.mem_cons.mp hq with hq | hq
          · rw [hq]; exact Nat.lt_of_not_le hle
          · exact hpre q hq
        · intro q hq
          rcases List.mem_cons.mp hq with hq | hq
          · rw [hq]; exact Nat.le_of_lt (Nat.lt_of_not_le hle)
          · exact hmin q hq

/-! ## Concrete sample data (used by the witnesses) -/

/-- Sample admin user. -/
def uAdmin : User :=
  { id := 1, username := "amy", password_hash := "h1", full_name := "Amy Admin"
    role := "Admin", department := "Science", designation := "Head" }

/-- Sample leader user. -/
def uLeader : User :=
  { id := 2, username := "lee", password_hash := "h2", full_name := "Lee Leader"
    role := "Leader", department := "Arts", designation := "Coordinator" }

/-- Sample meeting in department A with two absentees. -/
def mA : Meeting :=
  { id := 5, timestamp := "", date_of_meeting := "2024-05-01", department := "A"
    department_head := "Amy Admin", meeting_type := "General", mode := "Online"
    objective := "Plan", agenda := "N/A", start_time := "", end_time := ""
    attendees := "Lee Leader", absentees := "J. Doe, M. Lee", key_decisions := "None"
    action_items := "None", productive := "Yes", productivity_reason := ""
    submitted_by := "Amy Admin" }

/-- Sample meeting in department B with no absentees and not productive. -/
def mB : Meeting :=
  { id := 6, timestamp := "", date_of_meeting := "2024-06-02", department := "B"
    department_head := "Amy Admin", meeting_type := "Review", mode := "Physical"
    objective := "Review", agenda := "N/A", start_time := "", end_time := ""
    attendees := "Amy Admin", absentees := "", key_decisions := "None"
    action_items := "None", productive := "No", productivity_reason := ""
    submitted_by := "Amy Admin" }

/-- Sample overdue pending task assigned by the leader to themselves. -/
def tOverdue : Task :=
  { id := 10, title := "Report", description := "", assigner := "Lee Leader"
    assignee := "lee", department := "Arts", deadline := "2024-01-01"
    status := "Pending", completion_date := none }

/-- Sample completed task. -/
def tDone : Task :=
  { id := 11, title := "Plan", description := "", assigner := "Lee Leader"
    assignee := "lee", department := "Arts", deadline := "2024-01-03"
    status := "Completed", completion_date := some "2024-01-02" }

/-- Sample schedule targeted at every department. -/
def sAll : Schedule :=
  { id := 20, title := "Assembly", target_dept := "All", date := "2024-02-01"
    time := "10:00", mode := "Online", created_by := "Amy Admin" }

/-- Sample schedule targeted at the Arts department. -/
def sArts : Schedule :=
  { id := 21, title := "Arts Sync", target_dept := "Arts", date := "2024-02-02"
    time := "11:00", mode := "Physical", created_by := "Amy Admin" }

/-- The sample database the witnesses evaluate the handlers on. -/
def sampleDB : AppDB :=
  { departments := [{ id := 1, name := "Science" }]
    users := [uAdmin, uLeader]
    meetings := [mA, mB]
    tasks := [tOverdue, tDone]
    schedules := [sAll, sArts] }

/-! ## Claim C1: meeting analytics -/

theorem best_att_eq (db : AppDB) (dept : String) (month : Option String) :
    (meeting_analytics db dept month).best_att =
      match (pySorted (absenteeCounts (filteredMeetings db.meetings dept month))).head? with
      | some p => p.1
      | none => "N/A" := rfl

/-- C1, as amended.  Over the Meeting set filtered by the optional
department and month parameters: the displayed efficiency is
`int((productive/total)*100)` computed in IEEE binary64 (`pyFloatPct`,
which can fall below the exact `⌊100·productive/total⌋` — see the C1
counterexample — and is `0` when the filtered set is empty), where
`productive` counts meetings whose `productive` field is literally
`"Yes"`; the absentee dict has one entry per department of the filtered
meetings, holding exactly that department's total number of absentee
tokens (non-empty whitespace-trimmed comma-separated pieces); and the
reported best-attendance department is the entry with the fewest tokens,
the first-listed one in the ascending sort when several tie (`"N/A"` when
there are no entries). -/
theorem meeting_analytics_spec (db : AppDB) (dept : String) (month : Option String) :
    (meeting_analytics db dept month).efficiency =
      (if (filteredMeetings db.meetings dept month).length = 0 then 0
       else pyFloatPct
            ((filteredMeetings db.meetings dept month).countP
              fun m => m.productive == "Yes")
            (filteredMeetings db.meetings dept month).length) ∧
    ((meeting_analytics db dept month).absentee_counts.map Prod.fst).Nodup ∧
    (∀ d c, (d, c) ∈ (meeting_analytics db dept month).absentee_counts →
      c = absSum (filteredMeetings db.meetings dept month) d) ∧
    (∀ d, d ∈ (meeting_analytics db dept month).absentee_counts.map Prod.fst ↔
      d ∈ (filteredMeetings db.meetings dept month).map Meeting.department) ∧
    ((meeting_analytics db dept month).absentee_counts = [] →
      (meeting_analytics db dept month).best_att = "N/A") ∧
    ((meeting_analytics db dept month).absentee_counts ≠ [] →
      ∃ c pre post,
        (meeting_analytics db dept month).absentee_counts =
          pre ++ ((meeting_analytics db dept month).best_att, c) :: post ∧
        (∀ q ∈ pre, c < q.2) ∧
        ∀ q ∈ (meeting_analytics db dept month).absentee_counts, c ≤ q.2) := by
  have hac : (meeting_analytics db dept month).absentee_counts =
      absenteeCounts (filteredMeetings db.meetings dept month) := rfl
  have hnodup := absenteeCounts_keys_nodup (filteredMeetings db.meetings dept month)
  refine ⟨?_, ?_, ?_, ?_, ?_, ?_⟩
  · show (if (filteredMeetings db.meetings dept month).length > 0 then _ else 0) = _
    rcases Nat.eq_zero_or_pos (filteredMeetings db.meetings dept month).length with h | h
    · simp [h]
    · rw [if_pos h, if_neg (Nat.pos_iff_ne_zero.mp h), List.countP_eq_length_filter]
  · rw [hac]; exact hnodup
  · intro d c hdc
    rw [hac] at hdc
    have hl := (mem_iff_lookupD _ hnodup d c).mp hdc
    rw [absenteeCounts_lookupD] at hl
    by_cases hmem : d ∈ (filteredMeetings db.meetings dept month).map Meeting.department
    · rw [if_pos hmem] at hl
      exact (Option.some_inj.mp hl).symm
    · rw [if_neg hmem] at hl
      exact absurd hl (by simp)
  · intro d
    rw [hac, keys_mem_iff_lookupD, absenteeCounts_lookupD]
    by_cases hmem : d ∈ (filteredMeetings db.meetings dept month).map Meeting.department
    · simp [hmem]
    · simp [hmem]
  · intro h
    rw [hac] at h
    rw [best_att_eq, h]
    rfl
  · intro h
    rw [hac] at h
    cases hfm : firstMin (absenteeCounts (filteredMeetings db.meetings dept month)) with
    | none => exact absurd ((firstMin_eq_none_iff _).mp hfm) h
    | some p =>
      obtain ⟨pre, post, heq, hpre, hmin⟩ := firstMin_split _ p hfm
      have hb : (meeting_analytics db dept month).best_att = p.1 := by
        rw [best_att_eq, pySorted_head, hfm]
      refine ⟨p.2, pre, post, ?_, hpre, ?_⟩
      · rw [hac, hb, heq]
      · intro q hq
        rw [hac] at hq
        exact hmin q hq

/-- Witness for C1 on the sample database: department `A` holds 2 absentee
tokens, the dict is non-empty, and the reported best-attendance department
heads a minimal split of the dict. -/
theorem meeting_analytics_spec_witness :
    (("A", 2) ∈ (meeting_analytics sampleDB "All" none).absentee_counts ∧
      2 = absSum (filteredMeetings sampleDB.meetings "All" none) "A") ∧
    ((meeting_analytics sampleDB "All" none).absentee_counts ≠ [] ∧
      ∃ c pre post,
        (meeting_analytics sampleDB "All" none).absentee_counts =
          pre ++ ((meeting_analytics sampleDB "All" none).best_att, c) :: post ∧
        (∀ q ∈ pre, c < q.2) ∧
        ∀ q ∈ (meeting_analytics sampleDB "All" none).absentee_counts, c ≤ q.2) :=
  ⟨⟨by decide, (meeting_analytics_spec sampleDB "All" none).2.2.1 "A" 2 (by decide)⟩,
   ⟨by decide, (meeting_analytics_spec sampleDB "All" none).2.2.2.2.2 (by decide)⟩⟩

/-- The C1 counterexample database: 100 meetings, 29 of them productive. -/
def cexAnalyticsDB : AppDB :=
  { departments := [], users := []
    meetings := List.replicate 29 mA ++ List.replicate 71 mB
    tasks := [], schedules := [] }

/-- Counterexample to C1 as originally stated: with 29 productive
meetings of 100, the program's binary64 computation displays an
efficiency of 28, not the exact `⌊100·29/100⌋ = 29`. -/
theorem meeting_analytics_cex :
    (meeting_analytics cexAnalyticsDB "All" none).total = 100 ∧
    (meeting_analytics cexAnalyticsDB "All" none).productive = 29 ∧
    (meeting_analytics cexAnalyticsDB "All" none).efficiency = 28 ∧
    100 * 29 / 100 = 29 ∧
    (meeting_analytics cexAnalyticsDB "All" none).efficiency ≠
      100 * (meeting_analytics cexAnalyticsDB "All" none).productive /
        (meeting_analytics cexAnalyticsDB "All" none).total := by
  decide

/-! ## Claim C2: leader completion rate -/

/-- C2, as amended.  On the Leader dashboard, over the tasks whose
assigner equals the current user's full name, the displayed completion
rate is `int((completed/total)*100)` computed in IEEE binary64
(`pyFloatPct`, which can fall one below the exact
`⌊100·completed/total⌋` — see the C2 counterexample) where `completed`
counts tasks with status literally `"Completed"`, and the rate is `0`
when there are no such tasks. -/
theorem leader_dashboard_rate (db : AppDB) (u : User) (today : String)
    (h : u.role = "Leader" ∨ u.role = "Admin") :
    ∃ view, leader_dashboard db u today = some view ∧
      view.total = (db.tasks.filter fun t => t.assigner == u.full_name).length ∧
      view.rate =
        (if view.total = 0 then 0
         else pyFloatPct
              ((db.tasks.filter fun t => t.assigner == u.full_name).countP
                fun t => t.status == "Completed")
              view.total) := by
  have hrole : (!(u.role == "Leader" || u.role == "Admin")) = false := by
    rcases h with h | h <;> simp [h]
  unfold leader_dashboard
  rw [hrole]
  simp only [Bool.false_eq_true, if_false]
  refine ⟨_, rfl, rfl, ?_⟩
  show (if (db.tasks.filter fun t => t.assigner == u.full_name).length > 0 then _ else 0) = _
  rcases Nat.eq_zero_or_pos (db.tasks.filter fun t => t.assigner == u.full_name).length
    with hl | hl
  · simp [hl]
  · rw [if_pos hl, if_neg (Nat.pos_iff_ne_zero.mp hl), List.countP_eq_length_filter]

/-- Witness for C2: the sample leader has 2 assigned tasks, 1 completed,
rate 50. -/
theorem leader_dashboard_rate_witness :
    (uLeader.role = "Leader" ∨ uLeader.role = "Admin") ∧
    ∃ view, leader_dashboard sampleDB uLeader "2024-01-15" = some view ∧
      view.total = (sampleDB.tasks.filter fun t => t.assigner == uLeader.full_name).length ∧
      view.rate =
        (if view.total = 0 then 0
         else pyFloatPct
              ((sampleDB.tasks.filter fun t => t.assigner == uLeader.full_name).countP
                fun t => t.status == "Completed")
              view.total) :=
  ⟨by decide, leader_dashboard_rate sampleDB uLeader "2024-01-15" (by decide)⟩

/-- The C2 counterexample database: 50 tasks assigned by the sample
leader, 29 of them completed. -/
def cexRateDB : AppDB :=
  { departments := [], users := [uLeader], meetings := []
    tasks := List.replicate 29 tDone ++ List.replicate 21 tOverdue
    schedules := [] }

/-- Counterexample to C2 as originally stated: with 29 of 50 assigned
tasks completed, the program's binary64 computation displays a rate of
57, not the exact `⌊100·29/50⌋ = 58`. -/
theorem leader_dashboard_rate_cex :
    (leader_dashboard cexRateDB uLeader "2024-01-15").map LeaderView.total = some 50 ∧
    (leader_dashboard cexRateDB uLeader "2024-01-15").map LeaderView.rate = some 57 ∧
    100 * 29 / 50 = 58 ∧
    (leader_dashboard cexRateDB uLeader "2024-01-15").map LeaderView.rate ≠
      some (100 * 29 / 50) := by
  decide

/-! ## Claim C3: export ignores the department parameter -/

/-- C3.  The export builds one row (with the fixed column set) per Meeting
in the entire table; the rows are identical for any two values of the
`dept` parameter, which only reaches the download filename. -/
theorem export_analytics_spec (db : AppDB) (d1 d2 : String) :
    (export_analytics db d1).1 = (export_analytics db d2).1 ∧
    (export_analytics db d1).1 = db.meetings.map toExportRow ∧
    (export_analytics db d1).1.length = db.meetings.length ∧
    (export_analytics db d1).2 = "EduLog_" ++ d1 ++ ".xlsx" :=
  ⟨rfl, rfl, by simp [export_analytics], rfl⟩

/-! ## Claim C4: overdue notifications -/

/-- C4.  With the session's cleared flag unset, every task of the current
user with status ≠ `"Completed"` and deadline lexically before today
contributes an `"OVERDUE: <title>"` entry; a task whose status is
`"Completed"` contributes nothing (removing it from the table leaves the
notification list unchanged). -/
theorem inject_notifications_overdue (db : AppDB) (u : User) (today : String)
    (t₁ t₂ : Task) :
    (t₁ ∈ db.tasks → t₁.assignee = u.username → t₁.status ≠ "Completed" →
      pyLt t₁.deadline today →
      ("OVERDUE: " ++ t₁.title) ∈ inject_notifications db u false today) ∧
    (t₂.status = "Completed" →
      inject_notifications db u false today =
        inject_notifications { db with tasks := db.tasks.filter fun t => !(t == t₂) }
          u false today) := by
  constructor
  · intro hmem hassignee hstatus hlt
    unfold inject_notifications
    simp only [Bool.false_eq_true, if_false]
    apply List.mem_append_left
    apply List.mem_filterMap.mpr
    refine ⟨t₁, List.mem_filter.mpr ⟨hmem, by simp [hassignee, hstatus]⟩, ?_⟩
    unfold taskAlert
    rw [if_pos hlt]
  · intro hdone
    unfold inject_notifications
    simp only [Bool.false_eq_true, if_false]
    have hfilter :
        ((db.tasks.filter fun t => !(t == t₂)).filter
          fun t => t.assignee == u.username && !(t.status == "Completed"))
        = db.tasks.filter fun t => t.assignee == u.username && !(t.status == "Completed") := by
      rw [List.filter_filter]
      apply List.filter_congr
      intro x hx
      cases hst : (x.status == "Completed") with
      | true => simp [hst]
      | false =>
        have hxne : ¬ x = t₂ := by
          intro hxe
          rw [hxe, hdone] at hst
          simp at hst
        simp [hst, hxne]
    rw [hfilter]

/-- Witness for C4 on the sample database: the overdue pending task shows
up as `"OVERDUE: Report"`, and dropping the completed task changes
nothing. -/
theorem inject_notifications_overdue_witness :
    (tOverdue ∈ sampleDB.tasks ∧ tOverdue.assignee = uLeader.username ∧
      tOverdue.status ≠ "Completed" ∧ pyLt tOverdue.deadline "2024-01-15" ∧
      ("OVERDUE: " ++ tOverdue.title) ∈ inject_notifications sampleDB uLeader false "2024-01-15") ∧
    (tDone.status = "Completed" ∧
      inject_notifications sampleDB uLeader false "2024-01-15" =
        inject_notifications
          { sampleDB with tasks := sampleDB.tasks.filter fun t => !(t == tDone) }
          uLeader false "2024-01-15") :=
  ⟨⟨by decide, by decide, by decide, by decide,
    (inject_notifications_overdue sampleDB uLeader "2024-01-15" tOverdue tDone).1
      (by decide) (by decide) (by decide) (by decide)⟩,
   ⟨by decide,
    (inject_notifications_overdue sampleDB uLeader "2024-01-15" tOverdue tDone).2
      (by decide)⟩⟩

/-! ## Claim C5: delete_user -/

/-- C5.  Called with the current user's own id, `delete_user` deletes
nothing (the database is returned unchanged); called with the id of any
other existing user, it removes exactly that User record and leaves every
other user and every other table untouched. -/
theorem delete_user_spec (db : AppDB) (curId id : Nat) (u : User)
    (hu : u ∈ db.users) (hid : u.id = id)
    (huniq : ∀ v ∈ db.users, v.id = id → v = u) :
    (id = curId → delete_user db curId id = some db) ∧
    (id ≠ curId → ∃ db', delete_user db curId id = some db' ∧
      db'.users = db.users.filter (fun v => v.id != id) ∧
      u ∉ db'.users ∧
      (∀ v ∈ db.users, v ≠ u → v ∈ db'.users) ∧
      db'.departments = db.departments ∧ db'.meetings = db.meetings ∧
      db'.tasks = db.tasks ∧ db'.schedules = db.schedules) := by
  have hsome : (db.users.find? fun v => v.id == id).isSome :=
    List.find?_isSome.mpr ⟨u, hu, by simp [hid]⟩
  obtain ⟨w, hw⟩ := Option.isSome_iff_exists.mp hsome
  have hwid : w.id = id := by simpa using List.find?_some hw
  have hwu : w = u := huniq w (List.mem_of_find?_eq_some hw) hwid
  subst hwu
  have hred : delete_user db curId id =
      if w.id != curId then some { db with users := db.users.filter fun v => v.id != id }
      else some db := by
    unfold delete_user
    rw [hw]
  rw [hred]
  constructor
  · intro hcur
    have hb : (w.id != curId) = false := by simp [hid, hcur]
    rw [hb]
    simp
  · intro hne
    have hb : (w.id != curId) = true := by simp only [bne_iff_ne, ne_eq, hid]; exact hne
    rw [hb]
    simp only [if_true]
    refine ⟨_, rfl, rfl, ?_, ?_, rfl, rfl, rfl, rfl⟩
    · intro hmem
      have := (List.mem_filter.mp hmem).2
      simp [hid] at this
    · intro v hv hvne
      have hvid : (v.id != id) = true := by
        simp only [bne_iff_ne, ne_eq]
        intro hveq
        exact hvne (huniq v hv hveq)
      exact List.mem_filter.mpr ⟨hv, hvid⟩

/-- Witness for C5: the admin deleting themselves is a no-op; the admin
deleting the leader removes exactly the leader. -/
theorem delete_user_spec_witness :
    (delete_user sampleDB 1 1 = some sampleDB) ∧
    ∃ db', delete_user sampleDB 1 2 = some db' ∧
      db'.users = sampleDB.users.filter (fun v => v.id != 2) ∧
      uLeader ∉ db'.users ∧
      (∀ v ∈ sampleDB.users, v ≠ uLeader → v ∈ db'.users) ∧
      db'.departments = sampleDB.departments ∧ db'.meetings = sampleDB.meetings ∧
      db'.tasks = sampleDB.tasks ∧ db'.schedules = sampleDB.schedules :=
  ⟨(delete_user_spec sampleDB 1 1 uAdmin (by decide) (by decide) (by decide)).1 rfl,
   (delete_user_spec sampleDB 1 2 uLeader (by decide) (by decide) (by decide)).2 (by decide)⟩

/-! ## Claim C6: update_status -/

/-- C6.  For an existing task id and an arbitrary new-status string, the
operation rewrites that task's status to exactly the given string, and its
completion date becomes today exactly when the string is literally
`"Completed"` (otherwise it is left as it was); tasks with other ids and
all other tables are untouched. -/
theorem update_status_spec (db : AppDB) (id : Nat) (s today : String) (t : Task)
    (ht : t ∈ db.tasks) (hid : t.id = id) :
    ∃ db', update_status db id s today = some db' ∧
      ({ t with
          status := s,
          completion_date := if s = "Completed" then some today else t.completion_date } : Task)
        ∈ db'.tasks ∧
      (∀ v ∈ db.tasks, v.id ≠ id → v ∈ db'.tasks) ∧
      db'.departments = db.departments ∧ db'.users = db.users ∧
      db'.meetings = db.meetings ∧ db'.schedules = db.schedules := by
  have hsome : (db.tasks.find? fun v => v.id == id).isSome :=
    List.find?_isSome.mpr ⟨t, ht, by simp [hid]⟩
  obtain ⟨w, hw⟩ := Option.isSome_iff_exists.mp hsome
  unfold update_status
  rw [hw]
  refine ⟨_, rfl, ?_, ?_, rfl, rfl, rfl, rfl⟩
  · exact List.mem_map.mpr ⟨t, ht, by simp [hid]⟩
  · intro v hv hvne
    refine List.mem_map.mpr ⟨v, hv, ?_⟩
    have : (v.id == id) = false := by simp [hvne]
    rw [this]
    simp

/-- Witness for C6: completing the sample pending task stamps today. -/
theorem update_status_spec_witness :
    tOverdue ∈ sampleDB.tasks ∧ tOverdue.id = 10 ∧
    ∃ db', update_status sampleDB 10 "Completed" "2024-01-15" = some db' ∧
      ({ tOverdue with
          status := "Completed",
          completion_date :=
            if ("Completed" : String) = "Completed" then some "2024-01-15"
            else tOverdue.completion_date } : Task) ∈ db'.tasks ∧
      (∀ v ∈ sampleDB.tasks, v.id ≠ 10 → v ∈ db'.tasks) ∧
      db'.departments = sampleDB.departments ∧ db'.users = sampleDB.users ∧
      db'.meetings = sampleDB.meetings ∧ db'.schedules = sampleDB.schedules :=
  ⟨by decide, by decide,
   update_status_spec sampleDB 10 "Completed" "2024-01-15" tOverdue (by decide) (by decide)⟩

/-! ## Claim C9: update_status never erases a completion date -/

/-- C9.  With any new status other than `"Completed"`, `update_status`
changes only the `status` field of the addressed task: in particular every
task's `completion_date` (and every other field) survives unchanged. -/
theorem update_status_preserves (db : AppDB) (id : Nat) (s today : String)
    (hs : s ≠ "Completed") (db' : AppDB)
    (h : update_status db id s today = some db') :
    db'.tasks = db.tasks.map (fun t => if t.id == id then { t with status := s } else t) ∧
    ∀ t ∈ db.tasks, ∃ t' ∈ db'.tasks,
      t'.completion_date = t.completion_date ∧ t'.id = t.id ∧ t'.title = t.title ∧
      t'.description = t.description ∧ t'.assigner = t.assigner ∧
      t'.assignee = t.assignee ∧ t'.department = t.department ∧
      t'.deadline = t.deadline := by
  unfold update_status at h
  cases hfind : db.tasks.find? fun v => v.id == id with
  | none => rw [hfind] at h; exact absurd h (by simp)
  | some w =>
    rw [hfind] at h
    simp only [Option.some_inj] at h
    have htasks : db'.tasks =
        db.tasks.map (fun t => if t.id == id then { t with status := s } else t) := by
      rw [← h]
      apply List.map_congr_left
      intro t _
      by_cases hti : (t.id == id) = true
      · simp [hti, hs]
      · have hf : (t.id == id) = false := by simpa using hti
        simp [hf]
    refine ⟨htasks, ?_⟩
    intro t ht
    by_cases hti : (t.id == id) = true
    · refine ⟨{ t with status := s }, ?_, by simp, by simp, by simp, by simp, by simp,
        by simp, by simp, by simp⟩
      rw [htasks]
      exact List.mem_map.mpr ⟨t, ht, by simp [hti]⟩
    · refine ⟨t, ?_, rfl, rfl, rfl, rfl, rfl, rfl, rfl, rfl⟩
      rw [htasks]
      refine List.mem_map.mpr ⟨t, ht, ?_⟩
      have : (t.id == id) = false := by simpa using hti
      rw [this]
      simp

/-- Witness for C9: renaming the completed sample task's status to
`"Pending"` keeps its recorded completion date. -/
theorem update_status_preserves_witness :
    ("Pending" : String) ≠ "Completed" ∧
    ∃ db', update_status sampleDB 11 "Pending" "2024-01-15" = some db' ∧
      db'.tasks = sampleDB.tasks.map
        (fun t => if t.id == 11 then { t with status := "Pending" } else t) ∧
      ∀ t ∈ sampleDB.tasks, ∃ t' ∈ db'.tasks,
        t'.completion_date = t.completion_date ∧ t'.id = t.id ∧ t'.title = t.title ∧
        t'.description = t.description ∧ t'.assigner = t.assigner ∧
        t'.assignee = t.assignee ∧ t'.department = t.department ∧
        t'.deadline = t.deadline := by
  refine ⟨by decide, ?_⟩
  cases hEq : update_status sampleDB 11 "Pending" "2024-01-15" with
  | none => exact absurd hEq (by decide)
  | some db' =>
    obtain ⟨h1, h2⟩ :=
      update_status_preserves sampleDB 11 "Pending" "2024-01-15" (by decide) db' hEq
    exact ⟨db', rfl, h1, h2⟩

/-! ## Claim C7: staff creation swallows persistence failures -/

/-- C7.  When the staff-creation commit raises (the schema's own failure
mode: a unique-constraint violation because the username already exists),
the `except: pass` swallows it: no User row is added, the database is
unchanged, and the same `manage_staff.html` page renders with no flashed
feedback. -/
theorem manage_staff_post_swallows (db : AppDB) (cur : User) (form : StaffForm)
    (hash : String → String) (newId : Nat)
    (hrole : cur.role = "Admin")
    (hdup : ∃ v ∈ db.users, v.username = form.username) :
    manage_staff_post db cur form hash newId =
      some { dbAfter := db, template := "manage_staff.html", flashes := [] } := by
  have h1 : (!(cur.role == "Admin")) = false := by simp [hrole]
  have h2 : (db.users.any fun v => v.username == form.username) = true := by
    obtain ⟨v, hv, he⟩ := hdup
    exact List.any_eq_true.mpr ⟨v, hv, by simp [he]⟩
  unfold manage_staff_post
  rw [h1, h2]
  simp

/-- The duplicate staff-creation form used by the C7 witness: its username
collides with the sample admin's. -/
def formDup : StaffForm :=
  { username := "amy", password := "", fullname := "Amy Clone", role := "Employee"
    designation := "Aide", department := "Science" }

/-- Witness for C7: creating a second `"amy"` leaves the database and the
page exactly as they were. -/
theorem manage_staff_post_swallows_witness :
    uAdmin.role = "Admin" ∧ (∃ v ∈ sampleDB.users, v.username = formDup.username) ∧
    manage_staff_post sampleDB uAdmin formDup (fun s => s) 99 =
      some { dbAfter := sampleDB, template := "manage_staff.html", flashes := [] } :=
  ⟨by decide, by decide,
   manage_staff_post_swallows sampleDB uAdmin formDup (fun s => s) 99 (by decide) (by decide)⟩

/-! ## Claim C8: schedule visibility by target department -/

/-- C8.  Both dashboards list exactly the schedules passing the shared
query; among schedules dated today or later, one targeted `"All"` is
listed for a user of any department, and one targeted at a specific
department is listed exactly for users of that department. -/
theorem schedule_visibility (db : AppDB) (u : User) (today : String) (s : Schedule) :
    (employee_dashboard db u today).schedules = upcoming_schedules db.schedules u today ∧
    (∀ view, leader_dashboard db u today = some view →
      view.schedules = upcoming_schedules db.schedules u today) ∧
    (s ∈ db.schedules → pyLe today s.date →
      ((s.target_dept = "All" → s ∈ upcoming_schedules db.schedules u today) ∧
       (s.target_dept ≠ "All" →
         (s ∈ upcoming_schedules db.schedules u today ↔
           u.department = s.target_dept)))) := by
  refine ⟨rfl, ?_, ?_⟩
  · intro view hview
    unfold leader_dashboard at hview
    cases hrole : (!(u.role == "Leader" || u.role == "Admin")) with
    | true => rw [hrole] at hview; simp at hview
    | false =>
      rw [hrole] at hview
      simp only [Bool.false_eq_true, if_false, Option.some_inj] at hview
      rw [← hview]
  · intro hmem hle
    constructor
    · intro hall
      exact List.mem_filter.mpr ⟨hmem, by simp [hall, hle]⟩
    · intro hne
      constructor
      · intro hin
        have hpred := (List.mem_filter.mp hin).2
        simp [hne, hle] at hpred
        exact hpred.symm
      · intro hdep
        exact List.mem_filter.mpr ⟨hmem, by simp [hdep, hle]⟩

/-- Witness for C8: the `"All"` assembly shows for the Arts leader, and
the Arts-only schedule shows exactly because their department is Arts. -/
theorem schedule_visibility_witness :
    (sAll ∈ sampleDB.schedules ∧ pyLe "2024-01-15" sAll.date ∧ sAll.target_dept = "All" ∧
      sAll ∈ upcoming_schedules sampleDB.schedules uLeader "2024-01-15") ∧
    (sArts ∈ sampleDB.schedules ∧ pyLe "2024-01-15" sArts.date ∧ sArts.target_dept ≠ "All" ∧
      (sArts ∈ upcoming_schedules sampleDB.schedules uLeader "2024-01-15" ↔
        uLeader.department = sArts.target_dept)) :=
  ⟨⟨by decide, by decide, by decide,
    ((schedule_visibility sampleDB uLeader "2024-01-15" sAll).2.2 (by decide) (by decide)).1
      (by decide)⟩,
   ⟨by decide, by decide, by decide,
    ((schedule_visibility sampleDB uLeader "2024-01-15" sArts).2.2 (by decide) (by decide)).2
      (by decide)⟩⟩

/-! ## Claim C10: add_department idempotence and uniqueness -/

theorem find?_append_of_none {α : Type} (p : α → Bool) (l l' : List α)
    (h : l.find? p = none) : (l ++ l').find? p = l'.find? p := by
  induction l with
  | nil => rfl
  | cons a l ih =>
    cases hpa : p a with
    | true =>
      rw [List.find?_cons_of_pos _ hpa] at h
      exact absurd h (by simp)
    | false =>
      rw [List.find?_cons_of_neg _ (by simp [hpa])] at h
      rw [List.cons_append, List.find?_cons_of_neg _ (by simp [hpa])]
      exact ih h

/-- C10.  If a department with the requested name exists, `add_department`
leaves the table unchanged; a successful call is idempotent (a repeat call
with the same name returns the same database); and name uniqueness is
preserved by every call. -/
theorem add_department_spec (db : AppDB) (cur : User) (dname : String) (i₁ : Nat)
    (hrole : cur.role = "Admin") :
    ((∃ d ∈ db.departments, d.name = dname) → add_department db cur dname i₁ = some db) ∧
    (∀ db₁, add_department db cur dname i₁ = some db₁ →
      ∀ i₂, add_department db₁ cur dname i₂ = some db₁) ∧
    (∀ db₁, add_department db cur dname i₁ = some db₁ →
      (db.departments.map Department.name).Nodup →
      (db₁.departments.map Department.name).Nodup) := by
  have h1 : (!(cur.role == "Admin")) = false := by simp [hrole]
  cases hfind : (db.departments.find? fun d => d.name == dname) with
  | some d0 =>
    have hred : add_department db cur dname i₁ = some db := by
      unfold add_department
      rw [h1, hfind]
      simp
    refine ⟨fun _ => hred, ?_, ?_⟩
    · intro db₁ heq i₂
      rw [hred] at heq
      simp only [Option.some_inj] at heq
      subst heq
      unfold add_department
      rw [h1, hfind]
      simp
    · intro db₁ heq hn
      rw [hred] at heq
      simp only [Option.some_inj] at heq
      subst heq
      exact hn
  | none =>
    have hred : add_department db cur dname i₁ =
        some { db with departments := db.departments ++ [{ id := i₁, name := dname }] } := by
      unfold add_department
      rw [h1, hfind]
      simp
    have hnotin : dname ∉ db.departments.map Department.name := by
      intro hmem
      obtain ⟨d, hd, hdn⟩ := List.mem_map.mp hmem
      have := List.find?_eq_none.mp hfind d hd
      simp [hdn] at this
    refine ⟨?_, ?_, ?_⟩
    · intro ⟨d, hd, hdn⟩
      exact absurd (List.mem_map.mpr ⟨d, hd, hdn⟩) hnotin
    · intro db₁ heq i₂
      rw [hred] at heq
      simp only [Option.some_inj] at heq
      subst heq
      unfold add_department
      rw [h1]
      rw [show ({ db with departments := db.departments ++ [{ id := i₁, name := dname }] }
            : AppDB).departments = db.departments ++ [{ id := i₁, name := dname }] from rfl]
      rw [find?_append_of_none _ _ _ hfind]
      rw [List.find?_cons_of_pos _ (by simp)]
      simp
    · intro db₁ heq hn
      rw [hred] at heq
      simp only [Option.some_inj] at heq
      subst heq
      rw [show ({ db with departments := db.departments ++ [{ id := i₁, name := dname }] }
            : AppDB).departments = db.departments ++ [{ id := i₁, name := dname }] from rfl]
      rw [List.map_append, List.nodup_append]
      refine ⟨hn, by simp, ?_⟩
      simp only [List.Disjoint]
      simp only [List.map_cons, List.map_nil, List.mem_singleton, List.mem_map]
      rintro x ⟨d, hd, hdn⟩ hx
      rw [hx] at hdn
      exact hnotin (List.mem_map.mpr ⟨d, hd, hdn⟩)

/-- Witness for C10: re-adding `"Science"` is a no-op; adding `"Arts"`
succeeds once and the repeat call returns the same database with unique
names. -/
theorem add_department_spec_witness :
    uAdmin.role = "Admin" ∧
    (∃ d ∈ sampleDB.departments, d.name = "Science") ∧
    add_department sampleDB uAdmin "Science" 7 = some sampleDB ∧
    ∃ db₁, add_department sampleDB uAdmin "Arts" 8 = some db₁ ∧
      (∀ i₂, add_department db₁ uAdmin "Arts" i₂ = some db₁) ∧
      (db₁.departments.map Department.name).Nodup := by
  refine ⟨by decide, by decide,
    (add_department_spec sampleDB uAdmin "Science" 7 (by decide)).1 (by decide), ?_⟩
  cases hEq : add_department sampleDB uAdmin "Arts" 8 with
  | none => exact absurd hEq (by decide)
  | some db₁ =>
    refine ⟨db₁, rfl, ?_, ?_⟩
    · exact (add_department_spec sampleDB uAdmin "Arts" 8 (by decide)).2.1 db₁ hEq
    · exact (add_department_spec sampleDB uAdmin "Arts" 8 (by decide)).2.2 db₁ hEq (by decide)

end Edulog
